import Mathlib

/-!
Verification development for the `eth-validator-api` block-reward pipeline
(`src/handlers/blockreward.go`).

Modelling conventions:
* Go `float64` values are embedded as exact rationals (`ℚ`).  The one
  transcendental operation, `math.Sqrt`, is abstracted as an oracle function
  `sqrtO : ℚ → ℚ` carried in the environment, so every definition stays
  computable; theorems about the reward formula hold for every oracle and in
  particular for the real square root.
* The HTTP layer is embedded as an environment of canned upstream responses:
  `none` models a transport failure of `http.Get`/`http.Post`, and the decoded
  body is `Option α` where `none` models a JSON body that fails to decode into
  the target Go struct.
* Go functions returning `(value, error)` become `GoResult α`; a runtime panic
  (out-of-range string slice, failed type assertion) is the distinguished
  outcome `GoErr.panicked`, which propagates to the handler.
* Strings are treated as their character lists; all data handled by the
  program is ASCII, where Go's byte indexing agrees with character indexing.
-/

namespace EthApi

/-- Outcome of a Go computation that can fail: an ordinary returned `error`
value, or a runtime panic. -/
inductive GoErr where
  | failure
  | panicked
deriving DecidableEq, Repr

/-- Go's `(value, error)` return convention. -/
inductive GoResult (α : Type) where
  | ok (val : α)
  | err (e : GoErr)
deriving DecidableEq, Repr

/-- `execution_payload` of the beacon block (struct `BlockData` in the source;
the JSON envelope `data.message.body` is flattened away, field names kept). -/
structure ExecutionPayload where
  feeRecipient : String := ""
  blockNumber : String := ""
  gasLimit : String := ""
  gasUsed : String := ""
  baseFeePerGas : String := ""
  transactions : List String := []
  withdrawals : List String := []
  extraData : String := ""
  logsBloom : String := ""
deriving DecidableEq, Repr

/-- Beacon block data (struct `BlockData`): `data.message.slot`,
`data.message.proposer_index`, `data.message.body.execution_payload`. -/
structure BlockData where
  slot : String := ""
  proposerIndex : String := ""
  executionPayload : ExecutionPayload := {}
deriving DecidableEq, Repr

/-- Struct `ValidatorResponse`: `data.validator.effective_balance`. -/
structure ValidatorResponse where
  effectiveBalance : String := ""
deriving DecidableEq, Repr

/-- Struct `ValidatorsResponse`: the list of `data[i].validator.effective_balance`. -/
structure ValidatorsResponse where
  effectiveBalances : List String := []
deriving DecidableEq, Repr

/-- One entry of `Result["transactions"]` in the JSON-RPC response.  Each field
is `some s` when the dynamic map holds a string under that key and `none` when
the key is absent or not a string (the comma-ok type assertion fails). -/
structure RPCTransaction where
  gasPrice : Option String := none
  maxPriorityFeePerGas : Option String := none
  gas : Option String := none
deriving DecidableEq, Repr

/-- The dynamic `Result` map of struct `RPCResponse`, restricted to the keys the
program reads.  `none` models an absent key / failed type assertion. -/
structure RPCResult where
  baseFeePerGas : Option String := none
  transactions : Option (List RPCTransaction) := none
deriving DecidableEq, Repr

/-- Struct `RPCResponse` (the `jsonrpc`/`id` fields are never read). -/
structure RPCResponse where
  result : RPCResult := {}
deriving DecidableEq, Repr

/-- An upstream HTTP response: status code plus the result of decoding its JSON
body into the target struct (`none` = malformed body). -/
structure HttpResult (α : Type) where
  status : ℕ
  body : Option α
deriving DecidableEq, Repr

/-- Canned upstream responses for one request: the four outbound calls the
pipeline can make, plus the `math.Sqrt` oracle.  `none` at the outer level
models a transport error from `http.Get`/`http.Post`. -/
structure Env where
  sqrtO : ℚ → ℚ
  blockResp : ℤ → Option (HttpResult BlockData)
  validatorResp : ℤ → Option (HttpResult ValidatorResponse)
  validatorsResp : Option (HttpResult ValidatorsResponse)
  blockDetailsResp : ℤ → Option (HttpResult RPCResponse)

/-- Constant `BaseRewardFactor = 64`. -/
def BaseRewardFactor : ℚ := 64

/-- Constant `EthToGwei = 1e9`. -/
def EthToGwei : ℚ := 1e9

/-- Constant `MaxEffectiveBalance = 32 * EthToGwei`. -/
def MaxEffectiveBalance : ℚ := 32 * EthToGwei

/-- Decimal value of a digit list (each char assumed `0`-`9`). -/
def digitsVal (cs : List Char) : ℕ :=
  cs.foldl (fun a c => 10 * a + (c.toNat - 48)) 0

/-- Model of `strconv.Atoi` / `strconv.ParseInt(s, 10, 64)`: optional sign,
nonempty run of decimal digits, nothing else, 64-bit signed range. -/
def parseInt10 (s : String) : Option ℤ :=
  let p : ℤ × List Char :=
    match s.data with
    | '-' :: t => (-1, t)
    | '+' :: t => (1, t)
    | l => (1, l)
  if p.2.isEmpty || !p.2.all Char.isDigit then none
  else
    let v : ℤ := p.1 * (digitsVal p.2 : ℤ)
    if v < -(2 ^ 63) ∨ (2 ^ 63 - 1 : ℤ) < v then none else some v

/-- Model of `strconv.ParseFloat(s, 64)` for the plain decimal forms the beacon
API returns (optional sign, digits, optional fractional part; the value is kept
exact in `ℚ`). -/
def parseFloat (s : String) : Option ℚ :=
  let p : ℚ × List Char :=
    match s.data with
    | '-' :: t => (-1, t)
    | '+' :: t => (1, t)
    | l => (1, l)
  let ip := p.2.takeWhile Char.isDigit
  let rest := p.2.dropWhile Char.isDigit
  match rest with
  | [] => if ip.isEmpty then none else some (p.1 * (digitsVal ip : ℚ))
  | '.' :: fp =>
    if fp.all Char.isDigit && !(ip.isEmpty && fp.isEmpty)
    then some (p.1 * ((digitsVal ip : ℚ) + (digitsVal fp : ℚ) / 10 ^ fp.length))
    else none
  | _ => none

/-- Value of a single hexadecimal digit, `none` on a non-hex character. -/
def hexDigit? (c : Char) : Option ℕ :=
  if '0' ≤ c ∧ c ≤ '9' then some (c.toNat - 48)
  else if 'a' ≤ c ∧ c ≤ 'f' then some (c.toNat - 87)
  else if 'A' ≤ c ∧ c ≤ 'F' then some (c.toNat - 55)
  else none

/-- Value of a hexadecimal digit string, `none` if any character is not a hex
digit (the digit loop of `strconv.ParseUint(_, 16, _)`). -/
def hexVal? : List Char → Option ℕ
  | [] => some 0
  | c :: cs =>
    match hexDigit? c, hexVal? cs with
    | some d, some v => some (d * 16 ^ cs.length + v)
    | _, _ => none

/-- Model of `strconv.ParseUint(s, 16, 64)`: rejects the empty string, any
non-hex character, and values outside 64 bits. -/
def parseHexU64 (cs : List Char) : Option ℕ :=
  if cs.isEmpty then none
  else
    match hexVal? cs with
    | none => none
    | some v => if v < 2 ^ 64 then some v else none

/-- Function `HexToFloat`: `strconv.ParseUint(hexStr[2:], 16, 64)` widened to a
float.  The slice `hexStr[2:]` drops the first two bytes unconditionally and
panics when the string is shorter than two bytes. -/
def HexToFloat (hexStr : String) : GoResult ℚ :=
  match hexStr.data with
  | _ :: _ :: rest =>
    match parseHexU64 rest with
    | none => .err .failure
    | some v => .ok (v : ℚ)
  | _ => .err .panicked

/-- Model of `hex.DecodeString`: pairs of hex digits to bytes; fails on odd
length or a non-hex character. -/
def hexDecodeChars : List Char → Option (List ℕ)
  | [] => some []
  | [_] => none
  | a :: b :: rest =>
    match hexDigit? a, hexDigit? b, hexDecodeChars rest with
    | some x, some y, some l => some ((16 * x + y) :: l)
    | _, _, _ => none

/-- ASCII byte-level case folding, as `strings.ToLower` acts on the ASCII relay
names involved here. -/
def asciiToLower (b : ℕ) : ℕ :=
  if 65 ≤ b ∧ b ≤ 90 then b + 32 else b

/-- Bytes of an ASCII string literal. -/
def strBytes (s : String) : List ℕ := s.data.map Char.toNat

/-- Whether `needle` is an initial segment of `hay`. -/
def leadsWith : List ℕ → List ℕ → Bool
  | [], _ => true
  | _ :: _, [] => false
  | a :: as, b :: bs => a == b && leadsWith as bs

/-- Whether `needle` occurs contiguously anywhere in `hay`
(model of `strings.Contains`). -/
def occursIn (needle : List ℕ) : List ℕ → Bool
  | [] => needle.isEmpty
  | b :: bs => leadsWith needle (b :: bs) || occursIn needle bs

/-- The fixed list `knownRelays` of `IsMEVBlock`, in source order. -/
def knownRelays : List String :=
  ["aestus", "agnostic", "bloxroute", "eden", "flashbots",
   "manifold", "ultra", "wenmerge", "titan"]

/-- Whether the (lowercased) decoded extra-data bytes contain a known relay
name fragment. -/
def containsKnownRelay (bytes : List ℕ) : Bool :=
  knownRelays.any fun relay => occursIn (strBytes relay) bytes

/-- Function `IsMEVBlock`.  `extraData[2:]` panics (`none`) when the string is
shorter than two bytes; otherwise the remainder is hex-decoded (a decode error
yields `false`), lowercased, and searched for the known relay fragments. -/
def IsMEVBlock (blockData : BlockData) : Option Bool :=
  match blockData.executionPayload.extraData.data with
  | _ :: _ :: rest =>
    some (match hexDecodeChars rest with
      | none => false
      | some bytes => containsKnownRelay (bytes.map asciiToLower))
  | _ => none

/-- Function `FetchBlockData`: transport error, then a `StatusOK` check, then
JSON decoding. -/
def FetchBlockData (env : Env) (slot : ℤ) : GoResult BlockData :=
  match env.blockResp slot with
  | none => .err .failure
  | some resp =>
    if resp.status ≠ 200 then .err .failure
    else
      match resp.body with
      | none => .err .failure
      | some bd => .ok bd

/-- Function `FetchValidatorBalance`: decodes the body and parses
`effective_balance`; the HTTP status code is never inspected. -/
def FetchValidatorBalance (env : Env) (proposerIndex : ℤ) : GoResult ℚ :=
  match env.validatorResp proposerIndex with
  | none => .err .failure
  | some resp =>
    match resp.body with
    | none => .err .failure
    | some v =>
      match parseFloat v.effectiveBalance with
      | none => .err .failure
      | some q => .ok q

/-- The accumulation loop of `FetchTotalStaked`: parse every balance, summing;
the first parse failure aborts. -/
def sumBalances : List String → Option ℚ
  | [] => some 0
  | b :: rest =>
    match parseFloat b with
    | none => none
    | some x =>
      match sumBalances rest with
      | none => none
      | some t => some (x + t)

/-- Function `FetchTotalStaked`: decodes the validator list and sums the
effective balances; the HTTP status code is never inspected. -/
def FetchTotalStaked (env : Env) : GoResult ℚ :=
  match env.validatorsResp with
  | none => .err .failure
  | some resp =>
    match resp.body with
    | none => .err .failure
    | some vr =>
      match sumBalances vr.effectiveBalances with
      | none => .err .failure
      | some t => .ok t

/-- Function `CalculateBaseReward`: fetch the effective balance and the total
stake, clamp the balance at `MaxEffectiveBalance`, and apply the base-reward
formula with the `math.Sqrt` oracle. -/
def CalculateBaseReward (env : Env) (proposerIndex : ℤ) : GoResult ℚ :=
  match FetchValidatorBalance env proposerIndex with
  | .err e => .err e
  | .ok effectiveBalance =>
    match FetchTotalStaked env with
    | .err e => .err e
    | .ok totalStaked =>
      let eb := if effectiveBalance > MaxEffectiveBalance
                then MaxEffectiveBalance else effectiveBalance
      .ok (BaseRewardFactor * eb / env.sqrtO totalStaked)

/-- Function `FetchBlockDetails` (`eth_getBlockByNumber` over JSON-RPC): only
transport and decode failures are checked, never the status code.  The
`quickNodeURL` argument of the source carries no information here. -/
def FetchBlockDetails (env : Env) (blockNumber : ℤ) : GoResult RPCResponse :=
  match env.blockDetailsResp blockNumber with
  | none => .err .failure
  | some resp =>
    match resp.body with
    | none => .err .failure
    | some r => .ok r

/-- The transaction loop of `CalculateProposerPayment`: skip a transaction when
`maxPriorityFeePerGas` is absent or empty, parse it otherwise (a parse failure
aborts), then likewise skip on an absent or empty `gas` field, and accumulate
`maxPriorityFeePerGas * gasUsed`. -/
def proposerPaymentLoop : List RPCTransaction → ℚ → GoResult ℚ
  | [], acc => .ok acc
  | tx :: rest, acc =>
    match tx.maxPriorityFeePerGas with
    | none => proposerPaymentLoop rest acc
    | some s =>
      if s = "" then proposerPaymentLoop rest acc
      else
        match HexToFloat s with
        | .err e => .err e
        | .ok mpf =>
          match tx.gas with
          | none => proposerPaymentLoop rest acc
          | some g =>
            if g = "" then proposerPaymentLoop rest acc
            else
              match HexToFloat g with
              | .err e => .err e
              | .ok gu => proposerPaymentLoop rest (acc + mpf * gu)

/-- Function `CalculateProposerPayment`: the type assertion
`Result["transactions"].([]interface)` panics when the key is absent. -/
def CalculateProposerPayment (blockDetails : RPCResponse) : GoResult ℚ :=
  match blockDetails.result.transactions with
  | none => .err .panicked
  | some txs => proposerPaymentLoop txs 0

/-- The transaction loop of `CalculateTransactionFees`: `gas` and `gasPrice`
are read with unchecked type assertions (absence panics), parsed (a parse
failure aborts), and `(gasPrice - baseFee) * gasUsed` is accumulated with no
clamping. -/
def transactionFeesLoop (baseFee : ℚ) : List RPCTransaction → ℚ → GoResult ℚ
  | [], acc => .ok acc
  | tx :: rest, acc =>
    match tx.gas with
    | none => .err .panicked
    | some g =>
      match HexToFloat g with
      | .err e => .err e
      | .ok gasUsed =>
        match tx.gasPrice with
        | none => .err .panicked
        | some gp =>
          match HexToFloat gp with
          | .err e => .err e
          | .ok gasPrice =>
            transactionFeesLoop baseFee rest (acc + (gasPrice - baseFee) * gasUsed)

/-- Function `CalculateTransactionFees`: parse `baseFeePerGas` (unchecked type
assertion, absence panics), then run the tip loop over the transactions. -/
def CalculateTransactionFees (blockDetails : RPCResponse) : GoResult ℚ :=
  match blockDetails.result.baseFeePerGas with
  | none => .err .panicked
  | some bfs =>
    match HexToFloat bfs with
    | .err e => .err e
    | .ok baseFee =>
      match blockDetails.result.transactions with
      | none => .err .panicked
      | some txs => transactionFeesLoop baseFee txs 0

/-- Round to the nearest integer, ties to even (the rounding of `%.3f`). -/
def roundHalfEven (x : ℚ) : ℤ :=
  let f := ⌊x⌋
  if x - f < 1 / 2 then f
  else if 1 / 2 < x - f then f + 1
  else if f % 2 = 0 then f else f + 1

/-- The three fractional digits printed by `%.3f`, for `n < 1000`. -/
def pad3 (n : ℕ) : List Char :=
  [Char.ofNat (48 + n / 100 % 10), Char.ofNat (48 + n / 10 % 10),
   Char.ofNat (48 + n % 10)]

/-- Model of `fmt.Sprintf on "%.3f"`: sign, integer digits, a point, and
exactly three fractional digits of the value rounded to a thousandth. -/
def formatFixed3 (x : ℚ) : String :=
  let n := (roundHalfEven (|x| * 1000)).toNat
  ⟨(if x < 0 then ['-'] else []) ++ (Nat.repr (n / 1000)).data
    ++ '.' :: pad3 (n % 1000)⟩

/-- Outcome of the `GetBlockReward` gin handler: the 200 response with its two
JSON fields, the 400 response, any 500 response, or a runtime panic. -/
inductive Response where
  | ok (status : String) (reward : String)
  | badRequest
  | serverError
  | panicked
deriving DecidableEq, Repr

/-- Handler `GetBlockReward`: validate the slot, fetch and classify the block,
compute the base reward and the branch-selected block component, and format
`(baseReward + component) / 1e9` with three decimals. -/
def GetBlockReward (env : Env) (slotParam : String) : Response :=
  match parseInt10 slotParam with
  | none => .badRequest
  | some slot =>
    if slot < 0 then .badRequest
    else
      match FetchBlockData env slot with
      | .err _ => .serverError
      | .ok blockData =>
        match IsMEVBlock blockData with
        | none => .panicked
        | some isMEV =>
          match parseInt10 blockData.proposerIndex with
          | none => .serverError
          | some proposerIndex =>
            match CalculateBaseReward env proposerIndex with
            | .err .panicked => .panicked
            | .err .failure => .serverError
            | .ok baseReward =>
              match parseInt10 blockData.executionPayload.blockNumber with
              | none => .serverError
              | some blockNumber =>
                match FetchBlockDetails env blockNumber with
                | .err .panicked => .panicked
                | .err .failure => .serverError
                | .ok blockDetails =>
                  match (if isMEV then CalculateProposerPayment blockDetails
                         else CalculateTransactionFees blockDetails) with
                  | .err .panicked => .panicked
                  | .err .failure => .serverError
                  | .ok component =>
                    .ok (if isMEV then "MEV Relay" else "Vanilla Block")
                      (formatFixed3 ((baseReward + component) / 1e9))

/-- Describes the outcome of one iteration of the `CalculateProposerPayment`
loop: `none` marks a transaction skipped because `maxPriorityFeePerGas` is
absent or empty, and `some (mpf, gu)` records the parsed
`maxPriorityFeePerGas` and `gas` of a contributing transaction. -/
def prioStep (tx : RPCTransaction) (o : Option (ℚ × ℚ)) : Bool :=
  match tx.maxPriorityFeePerGas, o with
  | none, none => true
  | none, some _ => false
  | some s, none => s == ""
  | some s, some (mpf, gu) =>
    (¬ s = "" : Bool) &&
    (match HexToFloat s with
     | .ok v => v == mpf
     | .err _ => false) &&
    (match tx.gas with
     | some g =>
       (¬ g = "" : Bool) &&
       (match HexToFloat g with
        | .ok v => v == gu
        | .err _ => false)
     | none => false)

/-- Relates a transaction list to the per-transaction outcomes of the
`CalculateProposerPayment` loop. -/
def parsesPrio : List RPCTransaction → List (Option (ℚ × ℚ)) → Bool
  | [], [] => true
  | tx :: txs, o :: os => prioStep tx o && parsesPrio txs os
  | _, _ => false

/-- Sum of `maxPriorityFeePerGas * gasUsed` over the contributing
transactions. -/
def prioSum : List (Option (ℚ × ℚ)) → ℚ
  | [] => 0
  | none :: os => prioSum os
  | some p :: os => p.1 * p.2 + prioSum os

/-- Whether one transaction carries parseable `gasPrice` and `gas` fields with
the given values (one iteration of the `CalculateTransactionFees` loop). -/
def feeStep (tx : RPCTransaction) (p : ℚ × ℚ) : Bool :=
  (match tx.gasPrice with
   | some s =>
     match HexToFloat s with
     | .ok v => v == p.1
     | .err _ => false
   | none => false) &&
  (match tx.gas with
   | some g =>
     match HexToFloat g with
     | .ok v => v == p.2
     | .err _ => false
   | none => false)

/-- Relates a transaction list to parsed `(gasPrice, gasUsed)` pairs for the
`CalculateTransactionFees` loop (every transaction must carry both fields). -/
def parsesTxs : List RPCTransaction → List (ℚ × ℚ) → Bool
  | [], [] => true
  | tx :: txs, p :: ps => feeStep tx p && parsesTxs txs ps
  | _, _ => false

/-- Sum of `(gasPrice - baseFee) * gasUsed` over all transactions, signed, with
no clamping. -/
def feeSum (baseFee : ℚ) : List (ℚ × ℚ) → ℚ
  | [] => 0
  | p :: ps => (p.1 - baseFee) * p.2 + feeSum baseFee ps

/-- A nonempty all-hex-digit string: exactly the inputs on which the digit loop
of `strconv.ParseUint(_, 16, 64)` produces a value. -/
def isValidHexNum (cs : List Char) : Bool :=
  !cs.isEmpty && cs.all fun c => (hexDigit? c).isSome

/-- Number of characters after the last `.` of a string. -/
def decimalsAfterPoint (s : String) : ℕ :=
  (s.data.reverse.takeWhile fun c => c != '.').length

/-! Concrete fixtures used by witnesses and counterexamples. -/

/-- A vanilla beacon block: extra-data `0x` decodes to the empty byte string. -/
def bdVan : BlockData :=
  { slot := "1", proposerIndex := "7",
    executionPayload := { blockNumber := "10", extraData := "0x" } }

/-- An MEV beacon block: extra-data decodes to the bytes of `flashbots`. -/
def bdMev : BlockData :=
  { slot := "2", proposerIndex := "7",
    executionPayload := { blockNumber := "10",
                          extraData := "0x666c617368626f7473" } }

/-- Execution block for the vanilla branch: base fee `0x3b9aca00`, one
transaction paying one wei per gas above the base fee over `0x5208` gas. -/
def rpcVan : RPCResponse :=
  { result := { baseFeePerGas := some "0x3b9aca00",
                transactions :=
                  some [{ gasPrice := some "0x3b9aca01", gas := some "0x5208" }] } }

/-- Execution block for the MEV branch: one transaction with a priority fee of
`0x3b9aca00` per gas over `0x5208` gas, one without the field. -/
def rpcMev : RPCResponse :=
  { result := { baseFeePerGas := some "0x3b9aca00",
                transactions :=
                  some [{ maxPriorityFeePerGas := some "0x3b9aca00",
                          gas := some "0x5208" },
                        { gasPrice := some "0x3b9aca00", gas := some "0x5208" }] } }

/-- Environment for a successful vanilla-block computation. -/
def envVan : Env :=
  { sqrtO := fun _ => 2000000000
    blockResp := fun _ => some ⟨200, some bdVan⟩
    validatorResp := fun _ => some ⟨200, some ⟨"32000000000"⟩⟩
    validatorsResp := some ⟨200, some ⟨["4000000000000000000"]⟩⟩
    blockDetailsResp := fun _ => some ⟨200, some rpcVan⟩ }

/-- Environment for a successful MEV-block computation, with an effective
balance above the cap. -/
def envMev : Env :=
  { sqrtO := fun _ => 2000000000
    blockResp := fun _ => some ⟨200, some bdMev⟩
    validatorResp := fun _ => some ⟨200, some ⟨"40000000000"⟩⟩
    validatorsResp := some ⟨200, some ⟨["4000000000000000000"]⟩⟩
    blockDetailsResp := fun _ => some ⟨200, some rpcMev⟩ }

/-- Environment exercising the effective-balance clamp in isolation. -/
def envC2 : Env :=
  { sqrtO := fun _ => 2
    blockResp := fun _ => none
    validatorResp := fun _ => some ⟨200, some ⟨"40000000000"⟩⟩
    validatorsResp := some ⟨200, some ⟨["4"]⟩⟩
    blockDetailsResp := fun _ => none }

/-- Environment whose beacon endpoints answer with non-success HTTP statuses
but well-formed JSON bodies. -/
def envC7 : Env :=
  { sqrtO := fun q => q
    blockResp := fun _ => some ⟨404, some bdVan⟩
    validatorResp := fun _ => some ⟨500, some ⟨"32000000000"⟩⟩
    validatorsResp := some ⟨503, some ⟨["1000", "2000"]⟩⟩
    blockDetailsResp := fun _ => none }

/-- Environment where every upstream call fails at the transport level. -/
def envTriv : Env :=
  { sqrtO := fun q => q
    blockResp := fun _ => none
    validatorResp := fun _ => none
    validatorsResp := none
    blockDetailsResp := fun _ => none }

/-- A block whose `extra_data` field is the empty string. -/
def bdShort : BlockData :=
  { slot := "3", proposerIndex := "7", executionPayload := { extraData := "" } }

/-- RPC block with three transactions, one lacking `maxPriorityFeePerGas`
(the spec's exclusion example). -/
def rpcC5 : RPCResponse :=
  { result := { baseFeePerGas := some "0x1",
                transactions :=
                  some [{ gasPrice := some "0x3b9aca00",
                          maxPriorityFeePerGas := some "0x2",
                          gas := some "0x5208" },
                        { gasPrice := some "0x3b9aca00", gas := some "0x5208" },
                        { maxPriorityFeePerGas := some "0x3",
                          gas := some "0x2710" }] } }

/-- RPC block whose only transaction has a malformed `maxPriorityFeePerGas`. -/
def rpcC5bad : RPCResponse :=
  { result := { transactions :=
                  some [{ maxPriorityFeePerGas := some "0xzz",
                          gas := some "0x5208" }] } }

/-- RPC block whose only transaction pays less than the base fee, so the tip
total is negative. -/
def rpcC6 : RPCResponse :=
  { result := { baseFeePerGas := some "0x2",
                transactions :=
                  some [{ gasPrice := some "0x1", gas := some "0x5208" }] } }

/-! Claim theorems. -/

/-- Claim C10: `IsMEVBlock` is total only for extra-data strings of at least
two characters — on a shorter string (e.g. an absent field decoded as the
empty string) the slice `extraData[2:]` panics instead of the classifier
returning `false`. -/
theorem isMEVBlock_panics_on_short_extradata (bd : BlockData) :
    (bd.executionPayload.extraData.data.length < 2 → IsMEVBlock bd = none)
    ∧ (2 ≤ bd.executionPayload.extraData.data.length →
        (IsMEVBlock bd).isSome = true) := by
  rcases hd : bd.executionPayload.extraData.data with _ | ⟨a, _ | ⟨b, t⟩⟩
  · exact ⟨fun _ => by simp [IsMEVBlock, hd], fun h => by simp at h⟩
  · exact ⟨fun _ => by simp [IsMEVBlock, hd], fun h => by simp at h⟩
  · refine ⟨fun h => ?_, fun _ => by simp [IsMEVBlock, hd]⟩
    simp at h
    omega

/-- Witness for C10: the empty extra-data string panics; a two-character one
does not. -/
theorem isMEVBlock_panics_on_short_extradata_witness :
    IsMEVBlock bdShort = none ∧ (IsMEVBlock bdVan).isSome = true :=
  ⟨(isMEVBlock_panics_on_short_extradata bdShort).1 (by decide),
   (isMEVBlock_panics_on_short_extradata bdVan).2 (by decide)⟩

/-- Claim C8: a slot parameter that does not parse as a non-negative integer
is rejected with the 400 response, and the outcome is the same for every
environment of upstream responses — no upstream call can influence it. -/
theorem invalid_slot_rejected_without_upstream_calls (p : String)
    (h : ∀ n : ℤ, parseInt10 p = some n → n < 0) :
    ∀ env : Env, GetBlockReward env p = Response.badRequest := by
  intro env
  rcases hp : parseInt10 p with _ | n
  · simp [GetBlockReward, hp]
  · have hn := h n hp
    simp [GetBlockReward, hp, hn]

/-- Witness for C8: the slot parameter `-1` yields 400 on an environment where
every upstream call would fail. -/
theorem invalid_slot_rejected_without_upstream_calls_witness :
    GetBlockReward envTriv "-1" = Response.badRequest := by
  refine invalid_slot_rejected_without_upstream_calls "-1" ?_ envTriv
  intro n hn
  rw [show parseInt10 "-1" = some (-1) from by decide] at hn
  simp at hn
  omega

/-- Claim C4: on a block whose extra-data string has at least the two prefix
characters, `IsMEVBlock` never errors, returns `false` when hex decoding of
the remainder fails, and otherwise returns `true` exactly when the lowercased
decoded bytes contain one of the known relay fragments as an unanchored
substring. -/
theorem isMEVBlock_relay_fragment_iff (bd : BlockData) (a b : Char)
    (rest : List Char)
    (h : bd.executionPayload.extraData.data = a :: b :: rest) :
    (IsMEVBlock bd).isSome = true
    ∧ (hexDecodeChars rest = none → IsMEVBlock bd = some false)
    ∧ (∀ bytes, hexDecodeChars rest = some bytes →
        IsMEVBlock bd = some (containsKnownRelay (bytes.map asciiToLower)))
    ∧ (IsMEVBlock bd = some true ↔
        ∃ bytes, hexDecodeChars rest = some bytes
          ∧ containsKnownRelay (bytes.map asciiToLower) = true) := by
  refine ⟨by simp [IsMEVBlock, h], fun hd => by simp [IsMEVBlock, h, hd],
    fun bytes hd => by simp [IsMEVBlock, h, hd], ?_⟩
  cases hd : hexDecodeChars rest with
  | none => simp [IsMEVBlock, h, hd]
  | some bytes => simp [IsMEVBlock, h, hd]

/-- Witness for C4: the extra-data `0x666c617368626f7473` decodes to the bytes
of `flashbots` and is classified MEV. -/
theorem isMEVBlock_relay_fragment_iff_witness :
    (IsMEVBlock bdMev).isSome = true
    ∧ (hexDecodeChars "666c617368626f7473".data = none →
        IsMEVBlock bdMev = some false)
    ∧ (∀ bytes, hexDecodeChars "666c617368626f7473".data = some bytes →
        IsMEVBlock bdMev = some (containsKnownRelay (bytes.map asciiToLower)))
    ∧ (IsMEVBlock bdMev = some true ↔
        ∃ bytes, hexDecodeChars "666c617368626f7473".data = some bytes
          ∧ containsKnownRelay (bytes.map asciiToLower) = true) :=
  isMEVBlock_relay_fragment_iff bdMev '0' 'x' _ (by decide)

/-- The hex-digit loop fails as soon as one character is not a hex digit. -/
lemma hexVal?_eq_none_of_bad (cs : List Char) (c : Char) (hc : c ∈ cs)
    (hbad : hexDigit? c = none) : hexVal? cs = none := by
  induction cs with
  | nil => cases hc
  | cons a as ih =>
    rcases List.mem_cons.mp hc with rfl | hmem
    · simp [hexVal?, hbad]
    · cases ha : hexDigit? a <;> simp [hexVal?, ha, ih hmem]

/-- The hex-digit loop succeeds on any all-hex-digit string. -/
lemma hexVal?_isSome (cs : List Char)
    (h : ∀ c ∈ cs, (hexDigit? c).isSome = true) : ∃ v, hexVal? cs = some v := by
  induction cs with
  | nil => exact ⟨0, rfl⟩
  | cons a as ih =>
    obtain ⟨v, hv⟩ := ih fun c hc => h c (List.mem_cons_of_mem _ hc)
    have ha := h a (List.mem_cons_self _ _)
    rcases hda : hexDigit? a with _ | d
    · rw [hda] at ha; simp at ha
    · exact ⟨d * 16 ^ as.length + v, by simp [hexVal?, hda, hv]⟩

/-- Appending after the two-character prefix, at the character-list level. -/
lemma data_append_0x (s : String) : ("0x" ++ s).data = '0' :: 'x' :: s.data := rfl

/-- Claim C9: `HexToFloat` drops the two prefix characters and parses the
remainder as an unsigned 64-bit integer: it errors exactly on an empty or
non-hex remainder or on a value of 64 bits or more, and otherwise returns the
value as a number. -/
theorem hexToFloat_parses_u64_after_skipping_two (s : String) :
    (isValidHexNum s.data = false → HexToFloat ("0x" ++ s) = .err .failure)
    ∧ (∀ v : ℕ, hexVal? s.data = some v → 2 ^ 64 ≤ v →
        HexToFloat ("0x" ++ s) = .err .failure)
    ∧ (∀ v : ℕ, hexVal? s.data = some v → v < 2 ^ 64 → s.data ≠ [] →
        HexToFloat ("0x" ++ s) = .ok (v : ℚ))
    ∧ (isValidHexNum s.data = true → ∃ v, hexVal? s.data = some v) := by
  refine ⟨fun hinv => ?_, fun v hv hge => ?_, fun v hv hlt hne => ?_, fun hok => ?_⟩
  · rw [HexToFloat, data_append_0x]
    simp only [isValidHexNum, Bool.and_eq_false_iff, Bool.not_eq_false,
      List.all_eq_false] at hinv
    rcases hinv with h | ⟨c0, hc0, hbad⟩
    · rcases hd : s.data with _ | ⟨c, cs⟩
      · simp [parseHexU64, hd]
      · rw [hd] at h; simp at h
    · have hnone : hexVal? s.data = none :=
        hexVal?_eq_none_of_bad _ c0 hc0 (by simpa using hbad)
      rcases hd : s.data with _ | ⟨c, cs⟩
      · rw [hd] at hc0; cases hc0
      · rw [hd] at hnone
        simp [parseHexU64, hnone]
  · rw [HexToFloat, data_append_0x]
    have h2 : (2 : ℕ) ^ 64 = 18446744073709551616 := by norm_num
    rw [h2] at hge
    rcases hd : s.data with _ | ⟨c, cs⟩
    · rw [hd] at hv
      simp [hexVal?] at hv
      omega
    · rw [hd] at hv
      simp [parseHexU64, hv, show ¬ v < 18446744073709551616 by omega]
  · rw [HexToFloat, data_append_0x]
    have h2 : (2 : ℕ) ^ 64 = 18446744073709551616 := by norm_num
    rw [h2] at hlt
    rcases hd : s.data with _ | ⟨c, cs⟩
    · exact absurd hd hne
    · rw [hd] at hv
      simp [parseHexU64, hv, hlt]
  · simp only [isValidHexNum, Bool.and_eq_true, Bool.not_eq_true',
      List.all_eq_true] at hok
    exact hexVal?_isSome _ fun c hc => hok.2 c hc

/-- Witness for C9: a valid two-digit input, a non-hex input, and a 65-bit
value. -/
theorem hexToFloat_parses_u64_after_skipping_two_witness :
    HexToFloat ("0x" ++ "1a") = .ok ((26 : ℕ) : ℚ)
    ∧ HexToFloat ("0x" ++ "zz") = .err .failure
    ∧ HexToFloat ("0x" ++ "10000000000000000") = .err .failure :=
  ⟨(hexToFloat_parses_u64_after_skipping_two "1a").2.2.1 26 (by decide)
      (by decide) (by decide),
   (hexToFloat_parses_u64_after_skipping_two "zz").1 (by decide),
   (hexToFloat_parses_u64_after_skipping_two "10000000000000000").2.1
      18446744073709551616 (by decide) (by decide)⟩

/-! Evaluation lemmas for the hex literals used in fixtures.  Rational
arithmetic does not reduce definitionally, so each value is first obtained in
its raw cast form by reduction and then normalised. -/

lemma hexToFloat_0x1 : HexToFloat "0x1" = .ok 1 := by
  rw [show HexToFloat "0x1" = .ok ((1 : ℕ) : ℚ) from rfl]; norm_num

lemma hexToFloat_0x2 : HexToFloat "0x2" = .ok 2 := by
  rw [show HexToFloat "0x2" = .ok ((2 : ℕ) : ℚ) from rfl]; norm_num

lemma hexToFloat_0x3 : HexToFloat "0x3" = .ok 3 := by
  rw [show HexToFloat "0x3" = .ok ((3 : ℕ) : ℚ) from rfl]; norm_num

lemma hexToFloat_0x2710 : HexToFloat "0x2710" = .ok 10000 := by
  rw [show HexToFloat "0x2710" = .ok ((10000 : ℕ) : ℚ) from rfl]; norm_num

lemma hexToFloat_0x5208 : HexToFloat "0x5208" = .ok 21000 := by
  rw [show HexToFloat "0x5208" = .ok ((21000 : ℕ) : ℚ) from rfl]; norm_num

lemma hexToFloat_0x3b9aca00 : HexToFloat "0x3b9aca00" = .ok 1000000000 := by
  rw [show HexToFloat "0x3b9aca00" = .ok ((1000000000 : ℕ) : ℚ) from rfl]
  norm_num

lemma hexToFloat_0x3b9aca01 : HexToFloat "0x3b9aca01" = .ok 1000000001 := by
  rw [show HexToFloat "0x3b9aca01" = .ok ((1000000001 : ℕ) : ℚ) from rfl]
  norm_num

lemma hexToFloat_0xzz : HexToFloat "0xzz" = .err .failure := rfl

/-- Running the proposer-payment loop over a fully-described block of
transactions adds their contribution to the accumulator. -/
lemma proposerPaymentLoop_append :
    ∀ (txs : List RPCTransaction) (os : List (Option (ℚ × ℚ))),
      parsesPrio txs os = true →
      ∀ (k : List RPCTransaction) (acc : ℚ),
        proposerPaymentLoop (txs ++ k) acc
          = proposerPaymentLoop k (acc + prioSum os) := by
  intro txs
  induction txs with
  | nil =>
    intro os h k acc
    cases os with
    | nil => simp [prioSum]
    | cons o os => simp [parsesPrio] at h
  | cons tx rest ih =>
    intro os h k acc
    cases os with
    | nil => simp [parsesPrio] at h
    | cons o os =>
      simp only [parsesPrio, Bool.and_eq_true] at h
      obtain ⟨h1, h2⟩ := h
      cases hm : tx.maxPriorityFeePerGas with
      | none =>
        cases o with
        | some p => simp [prioStep, hm] at h1
        | none =>
          simp only [List.cons_append, proposerPaymentLoop, hm, prioSum]
          exact ih os h2 k acc
      | some s =>
        cases o with
        | none =>
          have hs : s = "" := by simpa [prioStep, hm] using h1
          subst hs
          simp [List.cons_append, proposerPaymentLoop, hm, prioSum]
          exact ih os h2 k acc
        | some p =>
          obtain ⟨mpf, gu⟩ := p
          simp only [prioStep, hm, Bool.and_eq_true, decide_eq_true_eq] at h1
          obtain ⟨⟨hs, hx⟩, hg⟩ := h1
          rcases hxe : HexToFloat s with v | e
          · rw [hxe] at hx
            have hv : v = mpf := by simpa using hx
            rcases hge : tx.gas with _ | g
            · rw [hge] at hg; simp at hg
            · simp only [hge, Bool.and_eq_true, decide_eq_true_eq] at hg
              obtain ⟨hgne, hxg⟩ := hg
              rcases hxge : HexToFloat g with w | e2
              · rw [hxge] at hxg
                have hw : w = gu := by simpa using hxg
                subst hv hw
                simp only [List.cons_append, List.append_eq, proposerPaymentLoop,
                  hm, hs, hxe, hge, hgne, hxge, if_neg, ite_false, prioSum]
                rw [ih os h2 k (acc + v * w)]
                congr 1
                ring
              · rw [hxge] at hxg; simp at hxg
          · rw [hxe] at hx; simp at hx

/-- Claim C5: for an execution block whose transactions are fully described,
`CalculateProposerPayment` sums `maxPriorityFeePerGas * gasUsed` over exactly
the transactions whose `maxPriorityFeePerGas` is present and non-empty, and a
present but non-hex value aborts the computation with a parse error. -/
theorem proposerPayment_skips_absent_priority_fee :
    (∀ (r : RPCResult) (txs : List RPCTransaction)
        (os : List (Option (ℚ × ℚ))),
      r.transactions = some txs → parsesPrio txs os = true →
      CalculateProposerPayment ⟨r⟩ = .ok (prioSum os))
    ∧ (∀ (r : RPCResult) (pre : List RPCTransaction)
        (os : List (Option (ℚ × ℚ))) (tx : RPCTransaction)
        (rest : List RPCTransaction) (s : String),
      r.transactions = some (pre ++ tx :: rest) → parsesPrio pre os = true →
      tx.maxPriorityFeePerGas = some s → s ≠ "" →
      HexToFloat s = .err .failure →
      CalculateProposerPayment ⟨r⟩ = .err .failure) := by
  constructor
  · intro r txs os h1 h2
    have h3 := proposerPaymentLoop_append txs os h2 [] 0
    rw [List.append_nil] at h3
    simp [CalculateProposerPayment, h1, h3, proposerPaymentLoop]
  · intro r pre os tx rest s h1 h2 hm hs hx
    have h3 := proposerPaymentLoop_append pre os h2 (tx :: rest) 0
    simp [CalculateProposerPayment, h1, h3, proposerPaymentLoop, hm, hs, hx]

/-- Witness for C5: a block with three transactions, one lacking
`maxPriorityFeePerGas`, sums only the other two; a malformed present value
aborts. -/
theorem proposerPayment_skips_absent_priority_fee_witness :
    CalculateProposerPayment rpcC5 = .ok 72000
    ∧ CalculateProposerPayment rpcC5bad = .err .failure := by
  constructor
  · refine (proposerPayment_skips_absent_priority_fee.1 rpcC5.result _
      [some (2, 21000), none, some (3, 10000)] rfl ?_).trans ?_
    · simp [parsesPrio, prioStep, hexToFloat_0x2, hexToFloat_0x5208,
        hexToFloat_0x3, hexToFloat_0x2710]
    · norm_num [prioSum]
  · exact proposerPayment_skips_absent_priority_fee.2 rpcC5bad.result []
      [] _ [] "0xzz" rfl rfl rfl (by simp) hexToFloat_0xzz

/-- Running the transaction-fee loop over parsed transactions adds the signed
tip total to the accumulator. -/
lemma transactionFeesLoop_append (bf : ℚ) :
    ∀ (txs : List RPCTransaction) (ps : List (ℚ × ℚ)),
      parsesTxs txs ps = true →
      ∀ (k : List RPCTransaction) (acc : ℚ),
        transactionFeesLoop bf (txs ++ k) acc
          = transactionFeesLoop bf k (acc + feeSum bf ps) := by
  intro txs
  induction txs with
  | nil =>
    intro ps h k acc
    cases ps with
    | nil => simp [feeSum]
    | cons p ps => simp [parsesTxs] at h
  | cons tx rest ih =>
    intro ps h k acc
    cases ps with
    | nil => simp [parsesTxs] at h
    | cons p ps =>
      simp only [parsesTxs, Bool.and_eq_true] at h
      obtain ⟨h1, h2⟩ := h
      rw [feeStep, Bool.and_eq_true] at h1
      obtain ⟨hgp, hgu⟩ := h1
      rcases hgpe : tx.gasPrice with _ | sp
      · rw [hgpe] at hgp; simp at hgp
      · simp only [hgpe] at hgp
        rcases hxp : HexToFloat sp with vp | e
        · rw [hxp] at hgp
          have hvp : vp = p.1 := by simpa using hgp
          rcases hge : tx.gas with _ | g
          · rw [hge] at hgu; simp at hgu
          · simp only [hge] at hgu
            rcases hxg : HexToFloat g with vg | e2
            · rw [hxg] at hgu
              have hvg : vg = p.2 := by simpa using hgu
              simp only [List.cons_append, List.append_eq, transactionFeesLoop,
                hge, hxg, hgpe, hxp, feeSum]
              rw [ih ps h2 k (acc + (vp - bf) * vg), hvp, hvg]
              congr 1
              ring
            · rw [hxg] at hgu; simp at hgu
        · rw [hxp] at hgp; simp at hgp

/-- Claim C6: for an execution block whose transactions all parse,
`CalculateTransactionFees` returns the sum of `(gasPrice - baseFee) * gasUsed`
over all transactions, with negative per-transaction tips entering the sum
unclamped. -/
theorem transactionFees_signed_tip_total :
    ∀ (r : RPCResult) (bfs : String) (bf : ℚ) (txs : List RPCTransaction)
      (ps : List (ℚ × ℚ)),
      r.baseFeePerGas = some bfs → HexToFloat bfs = .ok bf →
      r.transactions = some txs → parsesTxs txs ps = true →
      CalculateTransactionFees ⟨r⟩ = .ok (feeSum bf ps) := by
  intro r bfs bf txs ps h1 hx h2 h3
  have h4 := transactionFeesLoop_append bf txs ps h3 [] 0
  rw [List.append_nil] at h4
  simp [CalculateTransactionFees, h1, hx, h2, h4, transactionFeesLoop]

/-- Witness for C6: one transaction paying below the base fee yields a
negative total. -/
theorem transactionFees_signed_tip_total_witness :
    CalculateTransactionFees rpcC6 = .ok (-21000) ∧ ((-21000 : ℚ) < 0) := by
  constructor
  · refine (transactionFees_signed_tip_total rpcC6.result "0x2" 2 _
      [(1, 21000)] rfl hexToFloat_0x2 rfl ?_).trans ?_
    · simp [parsesTxs, feeStep, hexToFloat_0x1, hexToFloat_0x5208]
    · norm_num [feeSum]
  · norm_num

/-! Evaluation lemmas for decimal balance literals and fetch results. -/

lemma parseFloat_4 : parseFloat "4" = some 4 := by
  rw [show parseFloat "4" = some ((1 : ℚ) * ((4 : ℕ) : ℚ)) from rfl]; norm_num

lemma parseFloat_1000 : parseFloat "1000" = some 1000 := by
  rw [show parseFloat "1000" = some ((1 : ℚ) * ((1000 : ℕ) : ℚ)) from rfl]
  norm_num

lemma parseFloat_2000 : parseFloat "2000" = some 2000 := by
  rw [show parseFloat "2000" = some ((1 : ℚ) * ((2000 : ℕ) : ℚ)) from rfl]
  norm_num

lemma parseFloat_32e9 : parseFloat "32000000000" = some 32000000000 := by
  rw [show parseFloat "32000000000"
      = some ((1 : ℚ) * ((32000000000 : ℕ) : ℚ)) from rfl]
  norm_num

lemma parseFloat_40e9 : parseFloat "40000000000" = some 40000000000 := by
  rw [show parseFloat "40000000000"
      = some ((1 : ℚ) * ((40000000000 : ℕ) : ℚ)) from rfl]
  norm_num

lemma parseFloat_4e18 :
    parseFloat "4000000000000000000" = some 4000000000000000000 := by
  rw [show parseFloat "4000000000000000000"
      = some ((1 : ℚ) * ((4000000000000000000 : ℕ) : ℚ)) from rfl]
  norm_num

lemma sumBalances_4 : sumBalances ["4"] = some 4 := by
  simp [sumBalances, parseFloat_4]

lemma sumBalances_4e18 :
    sumBalances ["4000000000000000000"] = some 4000000000000000000 := by
  simp [sumBalances, parseFloat_4e18]

lemma sumBalances_1000_2000 : sumBalances ["1000", "2000"] = some 3000 := by
  simp [sumBalances, parseFloat_1000, parseFloat_2000]
  norm_num

/-- A decoded validator body with a parseable balance yields that balance,
whatever the HTTP status was. -/
lemma fetchValidatorBalance_ok (env : Env) (idx : ℤ) (st : ℕ)
    (v : ValidatorResponse) (q : ℚ)
    (h1 : env.validatorResp idx = some ⟨st, some v⟩)
    (h2 : parseFloat v.effectiveBalance = some q) :
    FetchValidatorBalance env idx = .ok q := by
  simp [FetchValidatorBalance, h1, h2]

/-- A decoded validator-list body whose balances sum yields that total,
whatever the HTTP status was. -/
lemma fetchTotalStaked_ok (env : Env) (st : ℕ) (vr : ValidatorsResponse)
    (t : ℚ)
    (h1 : env.validatorsResp = some ⟨st, some vr⟩)
    (h2 : sumBalances vr.effectiveBalances = some t) :
    FetchTotalStaked env = .ok t := by
  simp [FetchTotalStaked, h1, h2]

/-- Claim C2: with both fetches successful, the base reward is
`64 * min(effectiveBalance, 32e9) / sqrt(totalStake)`; in particular an
effective balance of `40000000000` enters the formula clamped to
`32000000000`. -/
theorem baseReward_formula_clamps_effective_balance (env : Env) (idx : ℤ)
    (eb ts : ℚ)
    (h1 : FetchValidatorBalance env idx = .ok eb)
    (h2 : FetchTotalStaked env = .ok ts) :
    CalculateBaseReward env idx
      = .ok (64 * min eb 32000000000 / env.sqrtO ts)
    ∧ (eb = 40000000000 →
        CalculateBaseReward env idx
          = .ok (64 * 32000000000 / env.sqrtO ts)) := by
  have hmax : MaxEffectiveBalance = 32000000000 := by
    norm_num [MaxEffectiveBalance, EthToGwei]
  have hbrf : BaseRewardFactor = 64 := by norm_num [BaseRewardFactor]
  have hmain : CalculateBaseReward env idx
      = .ok (64 * min eb 32000000000 / env.sqrtO ts) := by
    simp only [CalculateBaseReward, h1, h2]
    rcases le_or_lt eb MaxEffectiveBalance with h | h
    · rw [if_neg (not_lt.2 h), hbrf,
        show min eb (32000000000 : ℚ) = eb from by
          rw [← hmax]; exact min_eq_left h]
    · rw [if_pos h, hbrf, hmax,
        show min eb (32000000000 : ℚ) = 32000000000 from by
          rw [← hmax]; exact min_eq_right h.le]
  refine ⟨hmain, fun heb => ?_⟩
  rw [hmain, heb,
    show min (40000000000 : ℚ) 32000000000 = 32000000000 from
      min_eq_right (by norm_num)]

/-- Witness for C2: a balance of `40000000000` is used as `32000000000`. -/
theorem baseReward_formula_clamps_effective_balance_witness :
    CalculateBaseReward envC2 0
      = .ok (64 * min (40000000000 : ℚ) 32000000000 / envC2.sqrtO 4)
    ∧ CalculateBaseReward envC2 0
      = .ok (64 * 32000000000 / envC2.sqrtO 4) := by
  have h1 : FetchValidatorBalance envC2 0 = .ok 40000000000 :=
    fetchValidatorBalance_ok envC2 0 200 ⟨"40000000000"⟩ _ rfl parseFloat_40e9
  have h2 : FetchTotalStaked envC2 = .ok 4 :=
    fetchTotalStaked_ok envC2 200 ⟨["4"]⟩ 4 rfl sumBalances_4
  exact ⟨(baseReward_formula_clamps_effective_balance envC2 0 _ _ h1 h2).1,
    (baseReward_formula_clamps_effective_balance envC2 0 _ _ h1 h2).2 rfl⟩

/-- Counterexample to C7 as stated: `FetchValidatorBalance` and
`FetchTotalStaked` succeed on upstream responses with non-success HTTP
statuses (500 and 503) because the source never inspects the status code. -/
theorem beacon_fetch_status_counterexample :
    envC7.validatorResp 0 = some ⟨500, some ⟨"32000000000"⟩⟩
    ∧ (500 ≠ 200)
    ∧ FetchValidatorBalance envC7 0 = .ok 32000000000
    ∧ envC7.validatorsResp = some ⟨503, some ⟨["1000", "2000"]⟩⟩
    ∧ FetchTotalStaked envC7 = .ok 3000 :=
  ⟨rfl, by norm_num,
   fetchValidatorBalance_ok envC7 0 500 ⟨"32000000000"⟩ _ rfl parseFloat_32e9,
   rfl,
   fetchTotalStaked_ok envC7 503 ⟨["1000", "2000"]⟩ 3000 rfl
     sumBalances_1000_2000⟩

/-- Claim C7 (amended): `FetchBlockData` fails on a non-success status or a
malformed body; `FetchValidatorBalance` and `FetchTotalStaked` fail on a
malformed body but never inspect the status — with a decodable body they
succeed regardless of the status code.  Each failure is the immediate result
of the single upstream response, with no retry. -/
theorem beacon_fetch_failure_modes :
    (∀ (env : Env) (slot : ℤ) (resp : HttpResult BlockData),
      env.blockResp slot = some resp → resp.status ≠ 200 →
      FetchBlockData env slot = .err .failure)
    ∧ (∀ (env : Env) (slot : ℤ) (resp : HttpResult BlockData),
      env.blockResp slot = some resp → resp.body = none →
      FetchBlockData env slot = .err .failure)
    ∧ (∀ (env : Env) (idx : ℤ) (resp : HttpResult ValidatorResponse),
      env.validatorResp idx = some resp → resp.body = none →
      FetchValidatorBalance env idx = .err .failure)
    ∧ (∀ (env : Env) (resp : HttpResult ValidatorsResponse),
      env.validatorsResp = some resp → resp.body = none →
      FetchTotalStaked env = .err .failure)
    ∧ (∀ (env : Env) (idx : ℤ) (st : ℕ) (v : ValidatorResponse) (q : ℚ),
      env.validatorResp idx = some ⟨st, some v⟩ →
      parseFloat v.effectiveBalance = some q →
      FetchValidatorBalance env idx = .ok q)
    ∧ (∀ (env : Env) (st : ℕ) (vr : ValidatorsResponse) (t : ℚ),
      env.validatorsResp = some ⟨st, some vr⟩ →
      sumBalances vr.effectiveBalances = some t →
      FetchTotalStaked env = .ok t) := by
  refine ⟨fun env slot resp h1 h2 => ?_, fun env slot resp h1 h2 => ?_,
    fun env idx resp h1 h2 => ?_, fun env resp h1 h2 => ?_,
    fun env idx st v q h1 h2 => fetchValidatorBalance_ok env idx st v q h1 h2,
    fun env st vr t h1 h2 => fetchTotalStaked_ok env st vr t h1 h2⟩
  · simp [FetchBlockData, h1, h2]
  · simp only [FetchBlockData, h1, h2]
    split
    · rfl
    · rfl
  · simp [FetchValidatorBalance, h1, h2]
  · simp [FetchTotalStaked, h1, h2]

/-- Witness for the amended C7: a 404 block fetch fails, while the two
status-blind fetches succeed on 500/503 responses. -/
theorem beacon_fetch_failure_modes_witness :
    FetchBlockData envC7 0 = .err .failure
    ∧ FetchValidatorBalance envC7 0 = .ok 32000000000
    ∧ FetchTotalStaked envC7 = .ok 3000 :=
  ⟨beacon_fetch_failure_modes.1 envC7 0 ⟨404, some bdVan⟩ rfl (by norm_num),
   beacon_fetch_failure_modes.2.2.2.2.1 envC7 0 500 ⟨"32000000000"⟩ _ rfl
     parseFloat_32e9,
   beacon_fetch_failure_modes.2.2.2.2.2 envC7 503 ⟨["1000", "2000"]⟩ 3000 rfl
     sumBalances_1000_2000⟩


/-- Unfolding of `CalculateBaseReward` once both fetches succeed. -/
lemma calculateBaseReward_ok (env : Env) (idx : ℤ) (eb ts : ℚ)
    (h1 : FetchValidatorBalance env idx = .ok eb)
    (h2 : FetchTotalStaked env = .ok ts) :
    CalculateBaseReward env idx
      = .ok (BaseRewardFactor *
          (if eb > MaxEffectiveBalance then MaxEffectiveBalance else eb)
          / env.sqrtO ts) := by
  simp [CalculateBaseReward, h1, h2]

/-- The three fractional digits are never the decimal point. -/
lemma takeWhile_digits3 (a b c : Char) (t : List Char)
    (ha : (a != '.') = true) (hb : (b != '.') = true)
    (hc : (c != '.') = true) :
    ((a :: b :: c :: '.' :: t).takeWhile fun ch => ch != '.') = [a, b, c] := by
  simp [List.takeWhile_cons, ha, hb, hc]

/-- Every formatted value carries exactly three digits after the point. -/
lemma decimalsAfterPoint_formatFixed3 (x : ℚ) :
    decimalsAfterPoint (formatFixed3 x) = 3 := by
  have hd : ∀ d : ℕ, d < 10 → (Char.ofNat (48 + d) != '.') = true := by decide
  rw [decimalsAfterPoint,
    show (formatFixed3 x).data
        = ((if x < 0 then ['-'] else [])
            ++ (Nat.repr ((roundHalfEven (|x| * 1000)).toNat / 1000)).data)
          ++ '.' :: pad3 ((roundHalfEven (|x| * 1000)).toNat % 1000) from
      rfl,
    pad3]
  set n := (roundHalfEven (|x| * 1000)).toNat with hn
  have ha := hd ((n % 1000) / 100 % 10) (Nat.mod_lt _ (by norm_num))
  have hb := hd ((n % 1000) / 10 % 10) (Nat.mod_lt _ (by norm_num))
  have hc := hd ((n % 1000) % 10) (Nat.mod_lt _ (by norm_num))
  simp only [List.reverse_append, List.reverse_cons, List.reverse_nil,
    List.nil_append, List.append_assoc, List.cons_append]
  rw [takeWhile_digits3 _ _ _ _ hc hb ha]
  rfl

/-- Evaluation of `formatFixed3` when the scaled value rounds down to `n`. -/
lemma formatFixed3_eq (x : ℚ) (n : ℕ) (h0 : ¬ x < 0)
    (hf : ⌊|x| * 1000⌋ = (n : ℤ))
    (hlt : |x| * 1000 - ((n : ℤ) : ℚ) < 1 / 2) :
    formatFixed3 x
      = ⟨(Nat.repr (n / 1000)).data ++ '.' :: pad3 (n % 1000)⟩ := by
  have hr : roundHalfEven (|x| * 1000) = (n : ℤ) := by
    rw [roundHalfEven]
    simp only [hf, hlt, if_pos]
  simp [formatFixed3, hr, h0]

/-- Full decomposition of a successful `GetBlockReward` run into its pipeline
steps. -/
lemma getBlockReward_ok_decomp (env : Env) (p s r : String)
    (h : GetBlockReward env p = .ok s r) :
    ∃ (slot : ℤ) (bd : BlockData) (mev : Bool) (pidx : ℤ) (base : ℚ)
      (bn : ℤ) (details : RPCResponse) (comp : ℚ),
      parseInt10 p = some slot ∧ ¬ slot < 0
      ∧ FetchBlockData env slot = .ok bd
      ∧ IsMEVBlock bd = some mev
      ∧ s = (if mev then "MEV Relay" else "Vanilla Block")
      ∧ parseInt10 bd.proposerIndex = some pidx
      ∧ CalculateBaseReward env pidx = .ok base
      ∧ parseInt10 bd.executionPayload.blockNumber = some bn
      ∧ FetchBlockDetails env bn = .ok details
      ∧ ((mev = true ∧ CalculateProposerPayment details = .ok comp)
         ∨ (mev = false ∧ CalculateTransactionFees details = .ok comp))
      ∧ r = formatFixed3 ((base + comp) / 1e9) := by
  rcases hslot : parseInt10 p with _ | slot
  · simp [GetBlockReward, hslot] at h
  by_cases hneg : slot < 0
  · simp [GetBlockReward, hslot, hneg] at h
  rcases hfb : FetchBlockData env slot with bd | e
  swap
  · simp [GetBlockReward, hslot, hneg, hfb] at h
  rcases hmev : IsMEVBlock bd with _ | mev
  · simp [GetBlockReward, hslot, hneg, hfb, hmev] at h
  rcases hpidx : parseInt10 bd.proposerIndex with _ | pidx
  · simp [GetBlockReward, hslot, hneg, hfb, hmev, hpidx] at h
  rcases hbase : CalculateBaseReward env pidx with base | e
  swap
  · cases e <;> simp [GetBlockReward, hslot, hneg, hfb, hmev, hpidx, hbase] at h
  rcases hbn : parseInt10 bd.executionPayload.blockNumber with _ | bn
  · simp [GetBlockReward, hslot, hneg, hfb, hmev, hpidx, hbase, hbn] at h
  rcases hdet : FetchBlockDetails env bn with details | e
  swap
  · cases e <;>
      simp [GetBlockReward, hslot, hneg, hfb, hmev, hpidx, hbase, hbn, hdet] at h
  cases mev
  · rcases hcomp : CalculateTransactionFees details with comp | e
    swap
    · cases e <;>
        simp [GetBlockReward, hslot, hneg, hfb, hmev, hpidx, hbase, hbn, hdet,
          hcomp] at h
    obtain ⟨hs, hr⟩ : "Vanilla Block" = s ∧ formatFixed3 ((base + comp) / 1e9) = r := by
      simpa [GetBlockReward, hslot, hneg, hfb, hmev, hpidx, hbase, hbn, hdet,
        hcomp] using h
    exact ⟨slot, bd, false, pidx, base, bn, details, comp, rfl, hneg, hfb,
      hmev, by simp [hs.symm], hpidx, hbase, hbn, hdet, Or.inr ⟨rfl, hcomp⟩,
      hr.symm⟩
  · rcases hcomp : CalculateProposerPayment details with comp | e
    swap
    · cases e <;>
        simp [GetBlockReward, hslot, hneg, hfb, hmev, hpidx, hbase, hbn, hdet,
          hcomp] at h
    obtain ⟨hs, hr⟩ : "MEV Relay" = s ∧ formatFixed3 ((base + comp) / 1e9) = r := by
      simpa [GetBlockReward, hslot, hneg, hfb, hmev, hpidx, hbase, hbn, hdet,
        hcomp] using h
    exact ⟨slot, bd, true, pidx, base, bn, details, comp, rfl, hneg, hfb,
      hmev, by simp [hs.symm], hpidx, hbase, hbn, hdet, Or.inl ⟨rfl, hcomp⟩,
      hr.symm⟩

/-- Claim C1: every successful block-reward response adds to the base reward
exactly one block-level component, selected by the classification — the MEV
proposer payment under status `MEV Relay`, the transaction tip total under
status `Vanilla Block` — never both and never neither. -/
theorem blockReward_adds_exactly_one_component (env : Env) (p s r : String)
    (h : GetBlockReward env p = .ok s r) :
    ∃ (bd : BlockData) (pidx : ℤ) (base : ℚ) (details : RPCResponse)
      (comp : ℚ),
      CalculateBaseReward env pidx = .ok base
      ∧ ((s = "MEV Relay" ∧ IsMEVBlock bd = some true
            ∧ CalculateProposerPayment details = .ok comp)
         ∨ (s = "Vanilla Block" ∧ IsMEVBlock bd = some false
            ∧ CalculateTransactionFees details = .ok comp))
      ∧ ¬ (s = "MEV Relay" ∧ s = "Vanilla Block")
      ∧ r = formatFixed3 ((base + comp) / 1e9) := by
  obtain ⟨slot, bd, mev, pidx, base, bn, details, comp, _, _, _, hmev, hs, _,
    hbase, _, hdet, hcomp, hr⟩ := getBlockReward_ok_decomp env p s r h
  refine ⟨bd, pidx, base, details, comp, hbase, ?_, ?_, hr⟩
  · rcases hcomp with ⟨hm, hc⟩ | ⟨hm, hc⟩
    · subst hm; exact Or.inl ⟨by simpa using hs, hmev, hc⟩
    · subst hm; exact Or.inr ⟨by simpa using hs, hmev, hc⟩
  · rintro ⟨h1, h2⟩
    rw [h1] at h2
    exact absurd h2 (by decide)

/-- Claim C3: every successful reward string is the three-decimal rendering of
`(baseReward + blockComponent) / 1e9` — one uniform division of the sum — and
the rendering carries exactly three decimals at every magnitude. -/
theorem finalReward_uniform_division_three_decimals (env : Env)
    (p s r : String) (h : GetBlockReward env p = .ok s r) :
    (∃ (pidx : ℤ) (base : ℚ) (details : RPCResponse) (comp : ℚ),
      CalculateBaseReward env pidx = .ok base
      ∧ (CalculateProposerPayment details = .ok comp
         ∨ CalculateTransactionFees details = .ok comp)
      ∧ r = formatFixed3 ((base + comp) / 1e9))
    ∧ decimalsAfterPoint r = 3
    ∧ (∀ q : ℚ, decimalsAfterPoint (formatFixed3 q) = 3) := by
  obtain ⟨slot, bd, mev, pidx, base, bn, details, comp, _, _, _, _, _, _,
    hbase, _, _, hcomp, hr⟩ := getBlockReward_ok_decomp env p s r h
  refine ⟨⟨pidx, base, details, comp, hbase, ?_, hr⟩, ?_,
    fun q => decimalsAfterPoint_formatFixed3 q⟩
  · rcases hcomp with ⟨_, hc⟩ | ⟨_, hc⟩
    · exact Or.inl hc
    · exact Or.inr hc
  · rw [hr]
    exact decimalsAfterPoint_formatFixed3 _


/-- Witness for C1: a full vanilla-block run of the pipeline, with base reward
`1024` and tip total `21000`. -/
theorem blockReward_adds_exactly_one_component_witness :
    ∃ (bd : BlockData) (pidx : ℤ) (base : ℚ) (details : RPCResponse)
      (comp : ℚ),
      CalculateBaseReward envVan pidx = .ok base
      ∧ (((("Vanilla Block" : String) = "MEV Relay") ∧ IsMEVBlock bd = some true
            ∧ CalculateProposerPayment details = .ok comp)
         ∨ ((("Vanilla Block" : String) = "Vanilla Block")
            ∧ IsMEVBlock bd = some false
            ∧ CalculateTransactionFees details = .ok comp))
      ∧ ¬ ((("Vanilla Block" : String) = "MEV Relay")
            ∧ (("Vanilla Block" : String) = "Vanilla Block"))
      ∧ formatFixed3 ((1024 + 21000) / 1e9)
          = formatFixed3 ((base + comp) / 1e9) := by
  have h1 : parseInt10 "1" = some 1 := by decide
  have h2 : FetchBlockData envVan 1 = .ok bdVan := by decide
  have h3 : IsMEVBlock bdVan = some false := by decide
  have h4 : parseInt10 bdVan.proposerIndex = some 7 := by decide
  have hv : FetchValidatorBalance envVan 7 = .ok 32000000000 :=
    fetchValidatorBalance_ok envVan 7 200 ⟨"32000000000"⟩ _ rfl parseFloat_32e9
  have ht : FetchTotalStaked envVan = .ok 4000000000000000000 :=
    fetchTotalStaked_ok envVan 200 ⟨["4000000000000000000"]⟩ _ rfl
      sumBalances_4e18
  have h5 : CalculateBaseReward envVan 7 = .ok 1024 := by
    rw [calculateBaseReward_ok envVan 7 _ _ hv ht]
    norm_num [BaseRewardFactor, MaxEffectiveBalance, EthToGwei, envVan]
  have h6 : parseInt10 bdVan.executionPayload.blockNumber = some 10 := by
    decide
  have h7 : FetchBlockDetails envVan 10 = .ok rpcVan := by decide
  have h8 : CalculateTransactionFees rpcVan = .ok 21000 := by
    rw [show CalculateTransactionFees rpcVan
        = .ok ((0 : ℚ) + (((1000000001 : ℕ) : ℚ) - ((1000000000 : ℕ) : ℚ))
            * ((21000 : ℕ) : ℚ)) from rfl]
    norm_num
  have hA : GetBlockReward envVan "1"
      = .ok "Vanilla Block" (formatFixed3 ((1024 + 21000) / 1e9)) := by
    simp [GetBlockReward, h1, h2, h3, h4, h5, h6, h7, h8]
  exact blockReward_adds_exactly_one_component envVan "1" "Vanilla Block"
    (formatFixed3 ((1024 + 21000) / 1e9)) hA

/-- Witness for C3: a full MEV-block run whose reward string is the
three-decimal `21000.000`. -/
theorem finalReward_uniform_division_three_decimals_witness :
    ((∃ (pidx : ℤ) (base : ℚ) (details : RPCResponse) (comp : ℚ),
      CalculateBaseReward envMev pidx = .ok base
      ∧ (CalculateProposerPayment details = .ok comp
         ∨ CalculateTransactionFees details = .ok comp)
      ∧ formatFixed3 ((1024 + 21000000000000) / 1e9)
          = formatFixed3 ((base + comp) / 1e9))
    ∧ decimalsAfterPoint (formatFixed3 ((1024 + 21000000000000) / 1e9)) = 3
    ∧ (∀ q : ℚ, decimalsAfterPoint (formatFixed3 q) = 3))
    ∧ formatFixed3 ((1024 + 21000000000000) / 1e9) = "21000.000" := by
  have m1 : parseInt10 "2" = some 2 := by decide
  have m2 : FetchBlockData envMev 2 = .ok bdMev := by decide
  have m3 : IsMEVBlock bdMev = some true := by decide
  have m4 : parseInt10 bdMev.proposerIndex = some 7 := by decide
  have mv : FetchValidatorBalance envMev 7 = .ok 40000000000 :=
    fetchValidatorBalance_ok envMev 7 200 ⟨"40000000000"⟩ _ rfl parseFloat_40e9
  have mt : FetchTotalStaked envMev = .ok 4000000000000000000 :=
    fetchTotalStaked_ok envMev 200 ⟨["4000000000000000000"]⟩ _ rfl
      sumBalances_4e18
  have m5 : CalculateBaseReward envMev 7 = .ok 1024 := by
    rw [calculateBaseReward_ok envMev 7 _ _ mv mt]
    norm_num [BaseRewardFactor, MaxEffectiveBalance, EthToGwei, envMev]
  have m6 : parseInt10 bdMev.executionPayload.blockNumber = some 10 := by
    decide
  have m7 : FetchBlockDetails envMev 10 = .ok rpcMev := by decide
  have m8 : CalculateProposerPayment rpcMev = .ok 21000000000000 := by
    rw [show CalculateProposerPayment rpcMev
        = .ok ((0 : ℚ) + ((1000000000 : ℕ) : ℚ) * ((21000 : ℕ) : ℚ)) from rfl]
    norm_num
  have mA : GetBlockReward envMev "2"
      = .ok "MEV Relay" (formatFixed3 ((1024 + 21000000000000) / 1e9)) := by
    simp [GetBlockReward, m1, m2, m3, m4, m5, m6, m7, m8]
  have habs : (0 : ℚ) ≤ ((1024 : ℚ) + 21000000000000) / 1e9 := by norm_num
  have mfmt : formatFixed3 ((1024 + 21000000000000) / 1e9) = "21000.000" := by
    have h0 : ¬ ((1024 : ℚ) + 21000000000000) / 1e9 < 0 := by norm_num
    have hf : ⌊|((1024 : ℚ) + 21000000000000) / 1e9| * 1000⌋
        = ((21000000 : ℕ) : ℤ) := by
      rw [abs_of_nonneg habs, Int.floor_eq_iff]
      constructor <;> norm_num
    have hlt : |((1024 : ℚ) + 21000000000000) / 1e9| * 1000
        - (((21000000 : ℕ) : ℤ) : ℚ) < 1 / 2 := by
      rw [abs_of_nonneg habs]
      norm_num
    exact (formatFixed3_eq _ 21000000 h0 hf hlt).trans (by decide)
  exact ⟨finalReward_uniform_division_three_decimals envMev "2" "MEV Relay"
    (formatFixed3 ((1024 + 21000000000000) / 1e9)) mA, mfmt⟩

end EthApi
